import Mathlib

/-!
# Verification of the metronome scheduling engine

A shallow embedding of the beat-scheduler core of
`src/app/components/Metronome.tsx` (a browser metronome in a YouTube
practice app), together with theorems settling the specification
claims about it.

Modelling conventions:
* JavaScript `number` values (audio-clock seconds, BPM, gains) are
  modelled as `ℚ`, so "within floating-point tolerance" statements are
  settled exactly.
* Beat slots are modelled as `ℕ` with the encoding of the source:
  `0` = Mute, `1` = Normal, `2` = Accent (`type BeatType = 0 | 1 | 2`).
* The mutable refs of the component (`nextNoteTimeRef`,
  `currentBeatIndexRef`, `notesQueue`) form an explicit state record
  `SchedState`; the values the scheduler reads live on each call
  (`bpm`, `beatPatternRef`, `isMuted`, `volumeRef`, whether
  `audioContextRef.current` is non-null) form a `Config` record.
* Sound synthesis (oscillator + gain-envelope creation, lines 72-88)
  is modelled as appending a `SynthCall` record to a log.
* The `while` loop of `scheduler` (lines 103-106) is modelled with
  explicit fuel; lemmas below characterise its result for any fuel.
-/

/-- A beat slot state, as in the source: 0 = Mute, 1 = Normal, 2 = Accent. -/
abbrev BeatType := ℕ

/-- `interface ScheduledNote { time, beatIndex }` (lines 9-12): a record pushed
onto `notesQueue` for the visualizer. -/
structure ScheduledNote where
  time : ℚ
  beatIndex : ℕ
  deriving DecidableEq

/-- One sound-synthesis emission (lines 72-88): oscillator frequency, the
envelope gain (base gain scaled by master volume), and the oscillator
start/stop times. -/
structure SynthCall where
  freq : ℚ
  gain : ℚ
  startTime : ℚ
  stopTime : ℚ
  deriving DecidableEq

/-- The values the scheduler reads on each call: `bpm` and `isMuted` as
captured by the current `scheduler` incarnation (its `useCallback` deps,
line 108), the live refs `beatPatternRef` and `volumeRef`, and whether
`audioContextRef.current` is non-null. -/
structure Config where
  bpm : ℚ
  beatPattern : List BeatType
  isMuted : Bool
  hasAudio : Bool
  volume : ℚ
  deriving DecidableEq

/-- The mutable scheduling state of the component: `nextNoteTimeRef` (line 27),
`currentBeatIndexRef` (line 28), `notesQueue` (line 30), plus the log of
synthesis calls made so far. -/
structure SchedState where
  nextNoteTime : ℚ
  currentBeatIndex : ℕ
  notesQueue : List ScheduledNote
  synthLog : List SynthCall
  deriving DecidableEq

/-- `lookahead = 25.0` (ms, line 42), expressed in seconds. -/
def lookaheadSec : ℚ := 1/40

/-- `scheduleAheadTime = 0.1` (seconds, line 43). -/
def scheduleAheadTime : ℚ := 1/10

/-- `scheduleNote(time, beatIndex)` (lines 55-89). Pushes `{time, beatIndex}`
onto `notesQueue` first (line 57), then returns early if globally muted
(line 59), if there is no audio context (line 60), or if `beatIndex` is out
of bounds of the current pattern (line 66, so the slot read on line 68 is
never out of bounds); reads the slot, returns if it is Mute (line 69), and
otherwise synthesises: frequency 1000 for Accent / 800 for Normal (line 77),
gain `(1.0` or `0.6) * volume` (lines 79-80), oscillator started at `time`
and stopped at `time + 0.05` (lines 87-88). -/
def scheduleNote (cfg : Config) (time : ℚ) (beatIndex : ℕ) (s : SchedState) :
    SchedState :=
  let s1 : SchedState := { s with notesQueue := s.notesQueue ++ [⟨time, beatIndex⟩] }
  if cfg.isMuted then s1
  else if !cfg.hasAudio then s1
  else if cfg.beatPattern.length ≤ beatIndex then s1
  else
    let type := cfg.beatPattern.getD beatIndex 0
    if type = 0 then s1
    else
      let freq : ℚ := if type = 2 then 1000 else 800
      let baseGain : ℚ := if type = 2 then 1 else 3/5
      { s1 with synthLog :=
          s1.synthLog ++ [⟨freq, baseGain * cfg.volume, time, time + 1/20⟩] }

/-- `nextNote()` (lines 91-98): advance the cursor one beat —
`nextNoteTime += 60 / bpm` and
`currentBeatIndex = (currentBeatIndex + 1) % beatPatternRef.current.length`. -/
def nextNote (cfg : Config) (s : SchedState) : SchedState :=
  { s with
    nextNoteTime := s.nextNoteTime + 60 / cfg.bpm
    currentBeatIndex := (s.currentBeatIndex + 1) % cfg.beatPattern.length }

/-- One iteration of the `while` body of `scheduler` (lines 104-105):
`scheduleNote(nextNoteTimeRef.current, currentBeatIndexRef.current)` then
`nextNote()`. -/
def emit (cfg : Config) (s : SchedState) : SchedState :=
  nextNote cfg (scheduleNote cfg s.nextNoteTime s.currentBeatIndex s)

/-- The `while` loop of `scheduler` (lines 103-106), with explicit fuel:
while `nextNoteTime < horizon` (where `horizon = currentTime +
scheduleAheadTime`), emit a note and advance the cursor. -/
def schedulerLoop (cfg : Config) (horizon : ℚ) : ℕ → SchedState → SchedState
  | 0, s => s
  | fuel + 1, s =>
    if s.nextNoteTime < horizon then schedulerLoop cfg horizon fuel (emit cfg s)
    else s

/-- One invocation of `scheduler()` (lines 100-108) at audio-clock time
`clockNow`: a no-op when there is no audio context (line 101), otherwise the
lookahead loop with horizon `clockNow + scheduleAheadTime`. The re-arming
`setTimeout(scheduler, lookahead)` (line 107) is modelled by the caller
supplying the sequence of tick times. -/
def tick (cfg : Config) (clockNow : ℚ) (fuel : ℕ) (s : SchedState) : SchedState :=
  if cfg.hasAudio then schedulerLoop cfg (clockNow + scheduleAheadTime) fuel s
  else s

/-- A playback run: the scheduler fires once per element of `ticks`, at that
audio-clock time. -/
def run (cfg : Config) (fuel : ℕ) (ticks : List ℚ) (s : SchedState) : SchedState :=
  ticks.foldl (fun s c => tick cfg c fuel s) s

/-- The scheduling state right after playback starts (lines 155-156):
`currentBeatIndexRef.current = 0` and
`nextNoteTimeRef.current = currentTime + 0.05`, with nothing yet scheduled. -/
def startState (clockNow : ℚ) : SchedState :=
  { nextNoteTime := clockNow + 1/20
    currentBeatIndex := 0
    notesQueue := []
    synthLog := [] }

/-- The body of the audio-lifecycle effect (lines 146-157) when `isPlaying` is
true and an audio context exists: reset the playback cursor to
`(clockNow + 0.05, 0)` and invoke `scheduler()` immediately. The existing
`notesQueue` and past synthesis are untouched (those refs are not cleared). -/
def audioEffectBody (cfg : Config) (clockNow : ℚ) (fuel : ℕ) (s : SchedState) :
    SchedState :=
  tick cfg clockNow fuel
    { s with currentBeatIndex := 0, nextNoteTime := clockNow + 1/20 }

/-- Setting a new tempo while playing. `scheduler` is a `useCallback` with
dependency list `[bpm, isMuted]` (line 108), so `setBpm` recreates the
`scheduler` function; the audio-lifecycle effect depends on
`[isPlaying, scheduler]` (line 167), so it cleans up (clearing the pending
timeout, lines 164-166) and re-runs its body (lines 147-157) with the new
scheduler: the cursor is reset and the loop restarted. -/
def setBpmDuringPlayback (newBpm : ℚ) (clockNow : ℚ) (fuel : ℕ) (cfg : Config)
    (s : SchedState) : Config × SchedState :=
  let cfg1 : Config := { cfg with bpm := newBpm }
  (cfg1, audioEffectBody cfg1 clockNow fuel s)

/-- The slot-state cycle of `handleBeatClick` (lines 174-177):
Normal → Accent → Mute → Normal (a value that is neither 1 nor 2, including a
read past the end of the pattern, becomes 1). -/
def cycleBeat (t : BeatType) : BeatType :=
  if t = 1 then 2 else if t = 2 then 0 else 1

/-- `handleBeatClick(index)` while playing (lines 172-180): cycle the state of
one slot and `setBeatPattern`. The UI invokes it with an in-bounds index (the
buttons map over the pattern). `setBeatPattern` only triggers the ref-sync
effect (lines 34-36) updating `beatPatternRef`; `beatPattern` is deliberately
absent from the dependency list of `scheduler` (comment, line 108), so the
scheduler is not recreated, the audio-lifecycle effect does not re-run, and
the scheduling state is untouched. -/
def handleBeatClick (index : ℕ) (cfg : Config) (s : SchedState) :
    Config × SchedState :=
  ({ cfg with beatPattern :=
      cfg.beatPattern.set index (cycleBeat (cfg.beatPattern.getD index 0)) }, s)

/-- `changeTimeSignature(delta)` while playing (lines 182-195): append a
Normal slot when growing (capped at 12 slots, line 185), pop the last slot
when shrinking (floored at 1 slot, line 187), and `setBeatPattern` — which,
as for `handleBeatClick`, does not recreate the scheduler or re-run the
audio-lifecycle effect. Then, if the current beat index is at or beyond the
new length, reset it to 0 (lines 191-194); `nextNoteTimeRef`, the note queue
and the synthesis log are untouched either way. -/
def changeTimeSignature (delta : ℤ) (cfg : Config) (s : SchedState) :
    Config × SchedState :=
  let newPattern :=
    if 0 < delta then
      if cfg.beatPattern.length < 12 then cfg.beatPattern ++ [1]
      else cfg.beatPattern
    else
      if 1 < cfg.beatPattern.length then cfg.beatPattern.dropLast
      else cfg.beatPattern
  let s1 :=
    if newPattern.length ≤ s.currentBeatIndex then
      { s with currentBeatIndex := 0 }
    else s
  ({ cfg with beatPattern := newPattern }, s1)

/-- The visualizer drain (lines 119-128): while the head of the queue is due
(`time < currentTime`), make its `beatIndex` the active highlight and shift it
off the queue. Returns the remaining queue and the active index (`-1` = none). -/
def drainVisual (now : ℚ) : List ScheduledNote → ℤ → List ScheduledNote × ℤ
  | [], active => ([], active)
  | n :: rest, active =>
    if n.time < now then drainVisual now rest n.beatIndex else (n :: rest, active)

/-! ## Tap tempo (lines 198-213) -/

/-- The tap-tempo state: `tapTimesRef` (line 39), `lastTapRef` (line 40), and
the `bpm` state the estimator writes into. -/
structure TapState where
  tapTimes : List ℚ
  lastTap : ℚ
  bpm : ℚ
  deriving DecidableEq

/-- The retained tap window after a tap at time `now` (lines 201-205): if the
gap since the previous tap exceeds 2000 ms the history is discarded and the
session restarts with just this tap; otherwise the tap is appended and, if
more than 4 taps are now held, the oldest is shifted off. -/
def tapWindow (now : ℚ) (s : TapState) : List ℚ :=
  if 2000 < now - s.lastTap then [now]
  else
    let t := s.tapTimes ++ [now]
    if 4 < t.length then t.tail else t

/-- The tempo estimate from a tap window (lines 208-210): consecutive
inter-tap intervals, their mean, and `Math.round(60000 / avg)` (the Mathlib
`round` on `ℚ` agrees with the JavaScript `Math.round`: both are
`⌊x + 1/2⌋`). -/
def tapEstimate (times : List ℚ) : ℤ :=
  let intervals := List.zipWith (fun a b => a - b) times.tail times
  round (60000 / (intervals.sum / intervals.length))

/-- `handleTap()` (lines 198-213) at wall-clock time `now`: update the tap
window and `lastTap`; once at least two taps are held, compute the estimate
and adopt it only if it lies within `[30, 300]` (line 211). -/
def handleTap (now : ℚ) (s : TapState) : TapState :=
  let times := tapWindow now s
  let s1 : TapState := { tapTimes := times, lastTap := now, bpm := s.bpm }
  if 1 < times.length then
    let newBpm := tapEstimate times
    if 30 ≤ newBpm ∧ newBpm ≤ 300 then { s1 with bpm := (newBpm : ℚ) } else s1
  else s1

/-- The change handler of the BPM slider (line 324):
`onChange={(e) => setBpm(Number(e.target.value))}` — the incoming value is
stored as the tempo with no programmatic clamping; the slider attributes
`min="30"`/`max="240"` (lines 321-322) are widget attributes only. -/
def bpmSliderChange (v : ℚ) (s : TapState) : TapState :=
  { s with bpm := v }

/-! ## Derived notions and concrete instances used in the theorems -/

/-- `secondsPerBeat = 60.0 / bpm` (line 92). -/
def secondsPerBeat (cfg : Config) : ℚ := 60 / cfg.bpm

/-- The beat index read by the `n`-th emission when the cursor starts at raw
index `i` with pattern length `L`: the first emission reads `i` as-is, every
later one reads the modulo-wrapped index. -/
def iterIdx (i L n : ℕ) : ℕ := if n = 0 then i else (i + n) % L

/-- The `n`-th Scheduled Note emitted from a cursor at `(t0, i)` under `cfg`. -/
def emitNote (cfg : Config) (t0 : ℚ) (i n : ℕ) : ScheduledNote :=
  ⟨t0 + n * secondsPerBeat cfg, iterIdx i cfg.beatPattern.length n⟩

/-- The default configuration of the component during playback: 120 BPM (line 16),
pattern `[Accent, Normal, Normal, Normal]` (line 21), not muted, audio context
present, volume 0.7 (line 46). -/
def cfgDefault : Config :=
  { bpm := 120, beatPattern := [2, 1, 1, 1], isMuted := false,
    hasAudio := true, volume := 7/10 }

/-- Nominal scheduler tick times covering the first 2 seconds of audio-clock
time after a start at clock 0: one tick every 25 ms. -/
def nominalTicks : List ℚ := (List.range 81).map (fun k => (k : ℚ) / 40)

/-- The tap-tempo state before any tap: empty history, `lastTapRef = 0`
(line 40), default tempo 120. -/
def tapInit : TapState := { tapTimes := [], lastTap := 0, bpm := 120 }

/-- A mid-playback scheduling state: the cursor sits at beat 2 of the measure
with the next onset due at clock time 10. -/
def exampleMidState : SchedState :=
  { nextNoteTime := 10, currentBeatIndex := 2, notesQueue := [], synthLog := [] }

/-- A short tick sequence (scheduler invocations at clock times 0 and 2). -/
def shortTicks : List ℚ := [0, 2]

/-- A configuration whose first beat slot is Mute. -/
def cfgWithMuteSlot : Config :=
  { bpm := 120, beatPattern := [0, 1, 1, 1], isMuted := false,
    hasAudio := true, volume := 7/10 }

/-- A tap state holding four taps 500 ms apart. -/
def tapFour : TapState := { tapTimes := [0, 500, 1000, 1500], lastTap := 1500, bpm := 120 }

/-- A tap state holding a single tap at time 0. -/
def tapOne : TapState := { tapTimes := [0], lastTap := 0, bpm := 120 }

/-! ## Basic projection lemmas -/

theorem scheduleNote_notesQueue (cfg : Config) (t : ℚ) (i : ℕ) (s : SchedState) :
    (scheduleNote cfg t i s).notesQueue = s.notesQueue ++ [⟨t, i⟩] := by
  unfold scheduleNote
  dsimp only
  split_ifs <;> rfl

theorem scheduleNote_nextNoteTime (cfg : Config) (t : ℚ) (i : ℕ) (s : SchedState) :
    (scheduleNote cfg t i s).nextNoteTime = s.nextNoteTime := by
  unfold scheduleNote
  dsimp only
  split_ifs <;> rfl

theorem scheduleNote_currentBeatIndex (cfg : Config) (t : ℚ) (i : ℕ) (s : SchedState) :
    (scheduleNote cfg t i s).currentBeatIndex = s.currentBeatIndex := by
  unfold scheduleNote
  dsimp only
  split_ifs <;> rfl

theorem emit_nextNoteTime (cfg : Config) (s : SchedState) :
    (emit cfg s).nextNoteTime = s.nextNoteTime + secondsPerBeat cfg := by
  unfold emit nextNote secondsPerBeat
  rw [scheduleNote_nextNoteTime]

theorem emit_currentBeatIndex (cfg : Config) (s : SchedState) :
    (emit cfg s).currentBeatIndex
      = (s.currentBeatIndex + 1) % cfg.beatPattern.length := by
  unfold emit nextNote
  rw [scheduleNote_currentBeatIndex]

theorem emit_notesQueue (cfg : Config) (s : SchedState) :
    (emit cfg s).notesQueue
      = s.notesQueue ++ [⟨s.nextNoteTime, s.currentBeatIndex⟩] := by
  unfold emit nextNote
  rw [scheduleNote_notesQueue]

/-! ## Characterising iterated emission -/

theorem iterIdx_zero_left (L n : ℕ) : iterIdx 0 L n = n % L := by
  cases n with
  | zero => simp [iterIdx]
  | succ k => simp [iterIdx]

theorem iterIdx_step (i L n : ℕ) :
    iterIdx ((i + 1) % L) L n = iterIdx i L (n + 1) := by
  cases n with
  | zero => simp [iterIdx]
  | succ k =>
    simp only [iterIdx, Nat.succ_ne_zero, if_false, Nat.mod_add_mod]
    congr 1
    omega

theorem emitNote_step (cfg : Config) (t : ℚ) (i n : ℕ) :
    emitNote cfg (t + secondsPerBeat cfg) ((i + 1) % cfg.beatPattern.length) n
      = emitNote cfg t i (n + 1) := by
  unfold emitNote
  rw [iterIdx_step]
  congr 1
  push_cast
  ring

theorem emit_iterate_nextNoteTime (cfg : Config) (m : ℕ) (s : SchedState) :
    ((emit cfg)^[m] s).nextNoteTime = s.nextNoteTime + m * secondsPerBeat cfg := by
  induction m generalizing s with
  | zero => simp
  | succ k ih =>
    rw [Function.iterate_succ_apply, ih, emit_nextNoteTime]
    push_cast
    ring

theorem emit_iterate_currentBeatIndex (cfg : Config) (m : ℕ) (s : SchedState) :
    ((emit cfg)^[m] s).currentBeatIndex
      = iterIdx s.currentBeatIndex cfg.beatPattern.length m := by
  induction m generalizing s with
  | zero => simp [iterIdx]
  | succ k ih =>
    rw [Function.iterate_succ_apply, ih, emit_currentBeatIndex, iterIdx_step]

theorem emit_iterate_notesQueue (cfg : Config) (m : ℕ) (s : SchedState) :
    ((emit cfg)^[m] s).notesQueue
      = s.notesQueue
        ++ (List.range m).map (emitNote cfg s.nextNoteTime s.currentBeatIndex) := by
  induction m generalizing s with
  | zero => simp
  | succ k ih =>
    rw [Function.iterate_succ_apply, ih, emit_notesQueue, emit_nextNoteTime,
      emit_currentBeatIndex, List.range_succ_eq_map, List.map_cons, List.map_map,
      List.append_assoc, List.singleton_append]
    have h0 : emitNote cfg s.nextNoteTime s.currentBeatIndex 0
        = (⟨s.nextNoteTime, s.currentBeatIndex⟩ : ScheduledNote) := by
      simp [emitNote, iterIdx]
    have hmap : List.map (emitNote cfg (s.nextNoteTime + secondsPerBeat cfg)
          ((s.currentBeatIndex + 1) % cfg.beatPattern.length)) (List.range k)
        = List.map (emitNote cfg s.nextNoteTime s.currentBeatIndex ∘ Nat.succ)
            (List.range k) := by
      refine List.map_congr_left ?_
      intro n _
      simpa [Function.comp] using
        emitNote_step cfg s.nextNoteTime s.currentBeatIndex n
    rw [h0, hmap]

/-! ## The scheduler loop as iterated emission -/

theorem schedulerLoop_succ (cfg : Config) (h : ℚ) (fuel : ℕ) (s : SchedState) :
    schedulerLoop cfg h (fuel + 1) s
      = if s.nextNoteTime < h then schedulerLoop cfg h fuel (emit cfg s)
        else s := rfl

theorem schedulerLoop_eq_iterate (cfg : Config) (h : ℚ) (fuel : ℕ) (s : SchedState) :
    ∃ m ≤ fuel, schedulerLoop cfg h fuel s = (emit cfg)^[m] s := by
  induction fuel generalizing s with
  | zero => exact ⟨0, le_refl 0, rfl⟩
  | succ k ih =>
    rw [schedulerLoop_succ]
    split_ifs with hc
    · obtain ⟨m, hm, he⟩ := ih (emit cfg s)
      exact ⟨m + 1, by omega, by rw [he, Function.iterate_succ_apply]⟩
    · exact ⟨0, by omega, rfl⟩

theorem tick_eq_iterate (cfg : Config) (c : ℚ) (fuel : ℕ) (s : SchedState) :
    ∃ m, tick cfg c fuel s = (emit cfg)^[m] s := by
  unfold tick
  split_ifs with hc
  · obtain ⟨m, _, he⟩ := schedulerLoop_eq_iterate cfg (c + scheduleAheadTime) fuel s
    exact ⟨m, he⟩
  · exact ⟨0, rfl⟩

theorem run_cons (cfg : Config) (fuel : ℕ) (c : ℚ) (rest : List ℚ) (s : SchedState) :
    run cfg fuel (c :: rest) s = run cfg fuel rest (tick cfg c fuel s) := rfl

theorem run_eq_iterate (cfg : Config) (fuel : ℕ) (ticks : List ℚ) (s : SchedState) :
    ∃ m, run cfg fuel ticks s = (emit cfg)^[m] s := by
  induction ticks generalizing s with
  | nil => exact ⟨0, rfl⟩
  | cons c rest ih =>
    obtain ⟨k, hk⟩ := tick_eq_iterate cfg c fuel s
    obtain ⟨m, hm⟩ := ih (tick cfg c fuel s)
    exact ⟨m + k, by rw [run_cons, hm, hk, Function.iterate_add_apply]⟩

theorem run_startState_notesQueue (cfg : Config) (fuel : ℕ) (ticks : List ℚ)
    (t0 : ℚ) :
    ∃ m, (run cfg fuel ticks (startState t0)).notesQueue
      = (List.range m).map (fun n =>
          ⟨t0 + 1/20 + n * secondsPerBeat cfg, n % cfg.beatPattern.length⟩) := by
  obtain ⟨m, hm⟩ := run_eq_iterate cfg fuel ticks (startState t0)
  refine ⟨m, ?_⟩
  rw [hm, emit_iterate_notesQueue]
  simp [startState, emitNote, iterIdx_zero_left]

/-! ## Upper bound on the cursor -/

theorem schedulerLoop_nextNoteTime_le (cfg : Config) (h : ℚ) (fuel : ℕ)
    (s : SchedState) :
    (schedulerLoop cfg h fuel s).nextNoteTime
      ≤ max s.nextNoteTime (h + secondsPerBeat cfg) := by
  induction fuel generalizing s with
  | zero => exact le_max_left _ _
  | succ k ih =>
    rw [schedulerLoop_succ]
    split_ifs with hc
    · refine le_trans (ih (emit cfg s)) ?_
      rw [emit_nextNoteTime]
      exact max_le (le_trans (by linarith) (le_max_right _ _)) (le_max_right _ _)
    · exact le_max_left _ _

theorem run_nextNoteTime_le (cfg : Config) (fuel : ℕ) (B : ℚ) (ticks : List ℚ)
    (s : SchedState)
    (hticks : ∀ x ∈ ticks, x + scheduleAheadTime + secondsPerBeat cfg ≤ B)
    (hs : s.nextNoteTime ≤ B) :
    (run cfg fuel ticks s).nextNoteTime ≤ B := by
  induction ticks generalizing s with
  | nil => exact hs
  | cons c rest ih =>
    rw [run_cons]
    refine ih (tick cfg c fuel s) (fun x hx => hticks x (by simp [hx])) ?_
    unfold tick
    split_ifs
    · refine le_trans (schedulerLoop_nextNoteTime_le cfg _ fuel s) ?_
      have hc := hticks c (by simp)
      exact max_le hs (by linarith)
    · exact hs

/-! ## Claim theorems -/

/-- **C10**: every invocation of `scheduleNote` appends exactly one record to
the visual note queue, before the mute, audio-context and pattern-bounds
checks: the equation holds for every configuration, in particular when global
mute is on, when there is no audio context, when the slot is Mute, and when
the beat index is out of bounds — so the visual queue receives one record per
scheduler emission. -/
theorem scheduleNote_always_queues (cfg : Config) (t : ℚ) (i : ℕ)
    (s : SchedState) :
    (scheduleNote cfg t i s).notesQueue = s.notesQueue ++ [⟨t, i⟩] :=
  scheduleNote_notesQueue cfg t i s

/-- **C8**: a scheduled note whose beat slot is Mute (slot state 0) still
appends a Scheduled Note record to the visual queue, but produces no
synthesis call. -/
theorem mute_slot_queues_without_synth (cfg : Config) (t : ℚ) (i : ℕ)
    (s : SchedState) (h : cfg.beatPattern[i]? = some 0) :
    (scheduleNote cfg t i s).notesQueue = s.notesQueue ++ [⟨t, i⟩]
      ∧ (scheduleNote cfg t i s).synthLog = s.synthLog := by
  refine ⟨scheduleNote_notesQueue cfg t i s, ?_⟩
  have hi : i < cfg.beatPattern.length := by
    by_contra hc
    rw [List.getElem?_eq_none (by omega)] at h
    exact Option.noConfusion h
  have hval : cfg.beatPattern.getD i 0 = 0 := by
    rw [List.getD_eq_getElem?_getD, h]
    rfl
  unfold scheduleNote
  dsimp only
  split_ifs <;> rfl

/-- Witness for C8 at a concrete input: the default-shaped configuration with
a Mute first slot. -/
theorem mute_slot_queues_without_synth_witness :
    cfgWithMuteSlot.beatPattern[0]? = some 0
      ∧ ((scheduleNote cfgWithMuteSlot 1 0 (startState 0)).notesQueue
          = (startState 0).notesQueue ++ [⟨1, 0⟩]
        ∧ (scheduleNote cfgWithMuteSlot 1 0 (startState 0)).synthLog
          = (startState 0).synthLog) :=
  ⟨rfl, mute_slot_queues_without_synth cfgWithMuteSlot 1 0 (startState 0) rfl⟩

/-- **C5**: if at schedule time the beat index is at or beyond the current
pattern length (pattern shrunk mid-flight), no synthesis happens for that
note (and the slot read guarded on line 66 is never reached), and the next
cursor advance wraps the index modulo the new length, so the next scheduled
note has an in-bounds index. -/
theorem oob_beat_skips_synth_and_wraps (cfg : Config) (t : ℚ) (i : ℕ)
    (s : SchedState) (hoob : cfg.beatPattern.length ≤ i)
    (hL : 0 < cfg.beatPattern.length) :
    (scheduleNote cfg t i s).synthLog = s.synthLog
      ∧ (nextNote cfg s).currentBeatIndex < cfg.beatPattern.length := by
  constructor
  · unfold scheduleNote
    dsimp only
    split_ifs <;> rfl
  · exact Nat.mod_lt _ hL

/-- Witness for C5 at a concrete input: beat index 7 against the 4-slot
default pattern. -/
theorem oob_beat_skips_synth_and_wraps_witness :
    cfgDefault.beatPattern.length ≤ 7 ∧ 0 < cfgDefault.beatPattern.length
      ∧ ((scheduleNote cfgDefault 1 7 (startState 0)).synthLog
          = (startState 0).synthLog
        ∧ (nextNote cfgDefault (startState 0)).currentBeatIndex
          < cfgDefault.beatPattern.length) :=
  ⟨by norm_num [cfgDefault], by norm_num [cfgDefault],
    oob_beat_skips_synth_and_wraps cfgDefault 1 7 (startState 0)
      (by norm_num [cfgDefault]) (by norm_num [cfgDefault])⟩

/-- **C2**: with the tempo held fixed at `T ∈ [30, 300]` throughout playback,
the onset times of the consecutively scheduled notes form an arithmetic
sequence with common difference `60 / T` seconds, starting from the initial
`nextOnsetTime` of the playback cursor — exactly, in rational arithmetic. -/
theorem tempo_onsets_arithmetic (cfg : Config) (fuel : ℕ) (ticks : List ℚ)
    (t0 : ℚ) (n : ℕ) (_hT : 30 ≤ cfg.bpm ∧ cfg.bpm ≤ 300)
    (hn : n < ((run cfg fuel ticks (startState t0)).notesQueue).length) :
    ((run cfg fuel ticks (startState t0)).notesQueue.getD n ⟨0, 0⟩).time
      = (startState t0).nextNoteTime + n * (60 / cfg.bpm) := by
  obtain ⟨m, hm⟩ := run_startState_notesQueue cfg fuel ticks t0
  rw [hm] at hn ⊢
  have hn' : n < m := by simpa using hn
  rw [List.getD_eq_getElem?_getD, List.getElem?_map,
    List.getElem?_eq_getElem (by simpa using hn')]
  simp [startState, secondsPerBeat]

/-- Witness for C2 at a concrete input: the third note of a default-tempo
run lies one beat after the second. -/
theorem tempo_onsets_arithmetic_witness :
    (30 ≤ cfgDefault.bpm ∧ cfgDefault.bpm ≤ 300)
      ∧ 2 < ((run cfgDefault 4 shortTicks (startState 0)).notesQueue).length
      ∧ ((run cfgDefault 4 shortTicks (startState 0)).notesQueue.getD 2 ⟨0, 0⟩).time
        = (startState 0).nextNoteTime + 2 * (60 / cfgDefault.bpm) :=
  ⟨by norm_num [cfgDefault],
    by
      norm_num [run, shortTicks, cfgDefault, tick, schedulerLoop, emit,
        scheduleNote, nextNote, startState, scheduleAheadTime],
    tempo_onsets_arithmetic cfgDefault 4 shortTicks 0 2
      (by norm_num [cfgDefault])
      (by
        norm_num [run, shortTicks, cfgDefault, tick, schedulerLoop, emit,
          scheduleNote, nextNote, startState, scheduleAheadTime])⟩

/-- **C9**: with a pattern of fixed length `L` throughout playback, the beat
index sequence of the scheduled notes is periodic with period `L`: whenever
positions `i` and `i + L` both exist in the emitted sequence, they carry the
same beat index. -/
theorem beat_index_periodic (cfg : Config) (fuel : ℕ) (ticks : List ℚ)
    (t0 : ℚ) (i : ℕ)
    (hi : i + cfg.beatPattern.length
        < ((run cfg fuel ticks (startState t0)).notesQueue).length) :
    (((run cfg fuel ticks (startState t0)).notesQueue).getD i ⟨0, 0⟩).beatIndex
      = (((run cfg fuel ticks (startState t0)).notesQueue).getD
          (i + cfg.beatPattern.length) ⟨0, 0⟩).beatIndex := by
  obtain ⟨m, hm⟩ := run_startState_notesQueue cfg fuel ticks t0
  rw [hm] at hi ⊢
  have h2 : i + cfg.beatPattern.length < m := by simpa using hi
  have h1 : i < m := by omega
  rw [List.getD_eq_getElem?_getD, List.getElem?_map,
    List.getElem?_eq_getElem (by simpa using h1),
    List.getD_eq_getElem?_getD, List.getElem?_map,
    List.getElem?_eq_getElem (by simpa using h2)]
  simp [Nat.add_mod_right]

/-- Witness for C9 at a concrete input: in a default run of five notes over
the 4-slot pattern, positions 0 and 4 carry the same beat index. -/
theorem beat_index_periodic_witness :
    0 + cfgDefault.beatPattern.length
        < ((run cfgDefault 4 shortTicks (startState 0)).notesQueue).length
      ∧ (((run cfgDefault 4 shortTicks (startState 0)).notesQueue).getD 0
            ⟨0, 0⟩).beatIndex
        = (((run cfgDefault 4 shortTicks (startState 0)).notesQueue).getD
            (0 + cfgDefault.beatPattern.length) ⟨0, 0⟩).beatIndex :=
  ⟨by
      norm_num [run, shortTicks, cfgDefault, tick, schedulerLoop, emit,
        scheduleNote, nextNote, startState, scheduleAheadTime],
    beat_index_periodic cfgDefault 4 shortTicks 0 0
      (by
        norm_num [run, shortTicks, cfgDefault, tick, schedulerLoop, emit,
          scheduleNote, nextNote, startState, scheduleAheadTime])⟩

/-- **C4 (corrected)**: the gap `nextOnsetTime - clockNow` is NOT bounded by
the schedule-ahead window plus one lookahead interval (100 ms + 25 ms): at the
default tempo, already the first scheduler pass leaves the cursor 0.55 s ahead
of the clock. -/
theorem lookahead_gap_exceeds_claimed_bound :
    ¬ ((tick cfgDefault 0 4 (startState 0)).nextNoteTime - 0
        ≤ scheduleAheadTime + lookaheadSec) := by
  norm_num [tick, cfgDefault, schedulerLoop, emit, scheduleNote, nextNote,
    startState, scheduleAheadTime, lookaheadSec]

/-- **C4 (amended)**: at any point during playback no earlier than the start
and the scheduler passes so far, the gap between the cursor and the clock is
bounded by the schedule-ahead window plus one beat period:
`nextOnsetTime - clockNow ≤ 0.1 + 60 / bpm`. -/
theorem lookahead_gap_bound (cfg : Config) (fuel : ℕ) (ticks : List ℚ)
    (t0 c : ℚ) (hbpm : 0 < cfg.bpm) (ht0 : t0 ≤ c)
    (hticks : ∀ x ∈ ticks, x ≤ c) :
    (run cfg fuel ticks (startState t0)).nextNoteTime - c
      ≤ scheduleAheadTime + 60 / cfg.bpm := by
  have hspb : 0 < secondsPerBeat cfg := div_pos (by norm_num) hbpm
  have hbase : (startState t0).nextNoteTime
      ≤ c + scheduleAheadTime + secondsPerBeat cfg := by
    show t0 + 1/20 ≤ c + scheduleAheadTime + secondsPerBeat cfg
    unfold scheduleAheadTime
    linarith
  have hrun := run_nextNoteTime_le cfg fuel
    (c + scheduleAheadTime + secondsPerBeat cfg) ticks (startState t0)
    (fun x hx => by have := hticks x hx; linarith) hbase
  unfold secondsPerBeat at hrun
  linarith

/-- Witness for the amended C4 at a concrete input: one scheduler pass at the
start of a default-tempo playback. -/
theorem lookahead_gap_bound_witness :
    0 < cfgDefault.bpm ∧ (0 : ℚ) ≤ 0 ∧ (∀ x ∈ ([0] : List ℚ), x ≤ (0 : ℚ))
      ∧ (run cfgDefault 4 [0] (startState 0)).nextNoteTime - 0
        ≤ scheduleAheadTime + 60 / cfgDefault.bpm :=
  ⟨by norm_num [cfgDefault], le_refl 0, by simp,
    lookahead_gap_bound cfgDefault 4 [0] 0 0 (by norm_num [cfgDefault])
      (le_refl 0) (by simp)⟩

/-- **C1 (corrected, counterexample)**: setting a new tempo mid-playback does
NOT leave the playback cursor unchanged: from the cursor `(10, 2)` at clock
time 10, `setBpm 100` re-runs the audio-lifecycle effect, which resets and
re-advances the cursor. -/
theorem setBpm_mid_playback_moves_cursor :
    ¬ ((setBpmDuringPlayback 100 10 4 cfgDefault exampleMidState).2.nextNoteTime
          = exampleMidState.nextNoteTime
        ∧ (setBpmDuringPlayback 100 10 4 cfgDefault
            exampleMidState).2.currentBeatIndex
          = exampleMidState.currentBeatIndex) := by
  norm_num [setBpmDuringPlayback, audioEffectBody, tick, cfgDefault,
    exampleMidState, schedulerLoop, emit, scheduleNote, nextNote,
    scheduleAheadTime]

/-- **C1 (amended)**: setting a new tempo mid-playback restarts the scheduling
loop with the cursor reset to `(clockNow + 0.05, 0)` — the first note the
restarted loop schedules has onset `clockNow + 0.05` and beat index 0,
regardless of where the cursor was. A beat-pattern change does not restart
the loop: cycling a slot state (`handleBeatClick`) leaves the scheduling
state entirely untouched, and a time-signature change (`changeTimeSignature`)
leaves `nextNoteTime`, the note queue and the synthesis log untouched,
resetting the beat index to 0 exactly when the new pattern length is at or
below it (lines 191-194) and leaving it unchanged otherwise. -/
theorem tempo_change_restarts_pattern_change_does_not :
    (∀ (b c : ℚ) (cfg : Config) (s : SchedState) (fuel : ℕ),
        cfg.hasAudio = true → 0 < fuel →
        ((setBpmDuringPlayback b c fuel cfg s).2.notesQueue)[s.notesQueue.length]?
          = some ⟨c + 1/20, 0⟩)
      ∧ (∀ (i : ℕ) (cfg : Config) (s : SchedState),
          (handleBeatClick i cfg s).2 = s)
      ∧ ∀ (delta : ℤ) (cfg : Config) (s : SchedState),
          (changeTimeSignature delta cfg s).2.nextNoteTime = s.nextNoteTime
            ∧ (changeTimeSignature delta cfg s).2.notesQueue = s.notesQueue
            ∧ (changeTimeSignature delta cfg s).2.synthLog = s.synthLog
            ∧ (changeTimeSignature delta cfg s).2.currentBeatIndex
              = if ((changeTimeSignature delta cfg s).1.beatPattern).length
                    ≤ s.currentBeatIndex
                then 0 else s.currentBeatIndex := by
  refine ⟨?_, fun i cfg s => rfl, ?_⟩
  · intro b c cfg s fuel hA hf
    obtain ⟨k, rfl⟩ : ∃ k, fuel = k + 1 := ⟨fuel - 1, by omega⟩
    unfold setBpmDuringPlayback audioEffectBody tick
    dsimp only
    rw [if_pos (show ({ cfg with bpm := b } : Config).hasAudio = true from hA)]
    have hcond :
        ({ s with currentBeatIndex := 0, nextNoteTime := c + 1/20 }
            : SchedState).nextNoteTime
          < c + scheduleAheadTime := by
      show c + 1/20 < c + scheduleAheadTime
      norm_num [scheduleAheadTime]
    rw [schedulerLoop_succ, if_pos hcond]
    obtain ⟨m, _, hm⟩ := schedulerLoop_eq_iterate { cfg with bpm := b }
      (c + scheduleAheadTime) k
      (emit { cfg with bpm := b }
        { s with currentBeatIndex := 0, nextNoteTime := c + 1/20 })
    rw [hm, emit_iterate_notesQueue, emit_notesQueue]
    dsimp only
    rw [List.append_assoc, List.getElem?_append_right (le_refl _)]
    simp
  · intro delta cfg s
    unfold changeTimeSignature
    dsimp only
    split_ifs <;> exact ⟨rfl, rfl, rfl, rfl⟩

/-- Witness for the amended C1 at a concrete input: after `setBpm 100` at
clock 10, the first note of the restarted loop is `(10.05, beat 0)`. -/
theorem tempo_change_restart_witness :
    cfgDefault.hasAudio = true ∧ 0 < 1
      ∧ ((setBpmDuringPlayback 100 10 1 cfgDefault
            exampleMidState).2.notesQueue)[exampleMidState.notesQueue.length]?
        = some ⟨10 + 1/20, 0⟩ :=
  ⟨rfl, Nat.one_pos,
    tempo_change_restarts_pattern_change_does_not.1 100 10 cfgDefault
      exampleMidState 1 rfl Nat.one_pos⟩

set_option maxRecDepth 100000

/-- **C3 (corrected, counterexample)**: starting at 120 BPM with the default
pattern and ticking nominally (every 25 ms) through the first 2 seconds of
audio-clock time does NOT schedule exactly 4 notes. -/
theorem two_second_run_not_four_notes :
    ¬ ((run cfgDefault 4 nominalTicks (startState 0)).notesQueue.length = 4) := by
  norm_num [run, nominalTicks, cfgDefault, tick, schedulerLoop, emit,
    scheduleNote, nextNote, startState, scheduleAheadTime, List.range_succ]

/-- **C3 (amended)**: that run schedules exactly 5 notes: beat indices
`0,1,2,3,0` with onsets `t0, t0+0.5, t0+1.0, t0+1.5, t0+2.0` where
`t0 = 0.05` is the start time plus the 0.05 s start delay; the 4 notes whose
onsets lie within the 2-second window have indices `0,1,2,3` and onsets
`t0, t0+0.5, t0+1.0, t0+1.5` as claimed, and a fifth note with onset
`t0+2.0` (just beyond the window) is already scheduled. -/
theorem two_second_run_schedules_five_notes :
    (run cfgDefault 4 nominalTicks (startState 0)).notesQueue
      = [⟨1/20, 0⟩, ⟨11/20, 1⟩, ⟨21/20, 2⟩, ⟨31/20, 3⟩, ⟨41/20, 0⟩] := by
  norm_num [run, nominalTicks, cfgDefault, tick, schedulerLoop, emit,
    scheduleNote, nextNote, startState, scheduleAheadTime, List.range_succ]

/-- **C6**: (i) four taps at exactly 500 ms intervals, from a fresh session,
set the tempo to exactly 120 BPM (mean inter-tap interval, then
`round(60000 / mean)`); (ii) a tap arriving more than 2000 ms after the
previous one discards all prior taps, so the next estimate uses only taps of
the new session; (iii) at most the last 4 taps are ever retained. -/
theorem tap_tempo_spec :
    (∀ (t0 b : ℚ),
        (List.foldl (fun s t => handleTap t s)
          { tapTimes := [], lastTap := 0, bpm := b }
          [t0, t0 + 500, t0 + 1000, t0 + 1500]).bpm = 120)
      ∧ (∀ (now : ℚ) (s : TapState), 2000 < now - s.lastTap →
          (handleTap now s).tapTimes = [now])
      ∧ ∀ (now : ℚ) (s : TapState), s.tapTimes.length ≤ 4 →
          (handleTap now s).tapTimes.length ≤ 4 := by
  refine ⟨?_, ?_, ?_⟩
  · intro t0 b
    have h1 : handleTap t0 { tapTimes := [], lastTap := 0, bpm := b }
        = { tapTimes := [t0], lastTap := t0, bpm := b } := by
      unfold handleTap tapWindow tapEstimate
      norm_num
    have h2 : handleTap (t0 + 500) { tapTimes := [t0], lastTap := t0, bpm := b }
        = { tapTimes := [t0, t0 + 500], lastTap := t0 + 500, bpm := 120 } := by
      unfold handleTap tapWindow tapEstimate
      norm_num [add_sub_cancel_left]
    have h3 : handleTap (t0 + 1000)
        { tapTimes := [t0, t0 + 500], lastTap := t0 + 500, bpm := 120 }
        = { tapTimes := [t0, t0 + 500, t0 + 1000], lastTap := t0 + 1000,
            bpm := 120 } := by
      unfold handleTap tapWindow tapEstimate
      ring_nf
      norm_num [add_sub_cancel_left]
    have h4 : handleTap (t0 + 1500)
        { tapTimes := [t0, t0 + 500, t0 + 1000], lastTap := t0 + 1000,
          bpm := 120 }
        = { tapTimes := [t0, t0 + 500, t0 + 1000, t0 + 1500],
            lastTap := t0 + 1500, bpm := 120 } := by
      unfold handleTap tapWindow tapEstimate
      ring_nf
      norm_num [add_sub_cancel_left]
    simp only [List.foldl_cons, List.foldl_nil, h1, h2, h3, h4]
  · intro now s hgap
    unfold handleTap tapWindow
    dsimp only
    rw [if_pos hgap]
    norm_num
  · intro now s hlen
    have h1 : (handleTap now s).tapTimes = tapWindow now s := by
      unfold handleTap
      dsimp only
      split_ifs <;> rfl
    rw [h1]
    unfold tapWindow
    dsimp only
    split_ifs with hg hf
    · simp
    · simp only [List.length_tail, List.length_append, List.length_singleton]
      omega
    · simp only [List.length_append, List.length_singleton] at hf ⊢
      omega

/-- Witness for C6 at concrete inputs: a fresh four-tap session at 500 ms
spacing, a session reset by a 7.5 s gap, and the 4-tap retention bound. -/
theorem tap_tempo_spec_witness :
    (List.foldl (fun s t => handleTap t s)
        { tapTimes := [], lastTap := 0, bpm := 77 }
        [0, 0 + 500, 0 + 1000, 0 + 1500]).bpm = 120
      ∧ (2000 < (9000 : ℚ) - tapFour.lastTap
        ∧ (handleTap 9000 tapFour).tapTimes = [9000])
      ∧ (tapFour.tapTimes.length ≤ 4
        ∧ (handleTap 1600 tapFour).tapTimes.length ≤ 4) := by
  have hg : 2000 < (9000 : ℚ) - tapFour.lastTap := by norm_num [tapFour]
  have hl : tapFour.tapTimes.length ≤ 4 := by norm_num [tapFour]
  exact ⟨tap_tempo_spec.1 0 77, ⟨hg, tap_tempo_spec.2.1 9000 tapFour hg⟩,
    ⟨hl, tap_tempo_spec.2.2 1600 tapFour hl⟩⟩

/-- **C7 (corrected, counterexample)**: it is not the case that every
operation that sets the tempo leaves it within `[30, 300]`: the BPM slider
change handler stores the incoming value without any enforcement at the set
point (its `[30, 240]` bounds exist only as widget attributes). -/
theorem slider_change_sets_tempo_out_of_range :
    ¬ (30 ≤ (bpmSliderChange 500 tapInit).bpm
        ∧ (bpmSliderChange 500 tapInit).bpm ≤ 300) := by
  norm_num [bpmSliderChange, tapInit]

/-- **C7 (amended)**: the tap-tempo path enforces `[30, 300]` at the point
the tempo is set — it preserves the bounds, and an estimate outside
`[30, 300]` leaves the tempo unchanged rather than clamping it — while the
slider path stores the raw input value with no enforcement at the set
point. -/
theorem tempo_bounds_spec :
    (∀ (now : ℚ) (s : TapState), 30 ≤ s.bpm → s.bpm ≤ 300 →
        30 ≤ (handleTap now s).bpm ∧ (handleTap now s).bpm ≤ 300)
      ∧ (∀ (now : ℚ) (s : TapState),
          (tapEstimate (tapWindow now s) < 30
              ∨ 300 < tapEstimate (tapWindow now s)) →
          (handleTap now s).bpm = s.bpm)
      ∧ ∀ (v : ℚ) (s : TapState), (bpmSliderChange v s).bpm = v := by
  refine ⟨?_, ?_, ?_⟩
  · intro now s h30 h300
    unfold handleTap
    dsimp only
    split_ifs with h1 h2
    · constructor
      · show (30 : ℚ) ≤ ((tapEstimate (tapWindow now s) : ℤ) : ℚ)
        exact_mod_cast h2.1
      · show ((tapEstimate (tapWindow now s) : ℤ) : ℚ) ≤ 300
        exact_mod_cast h2.2
    · exact ⟨h30, h300⟩
    · exact ⟨h30, h300⟩
  · intro now s hout
    unfold handleTap
    dsimp only
    split_ifs with h1 h2
    · exfalso
      rcases hout with h | h <;> omega
    · rfl
    · rfl
  · intro v s
    rfl

/-- Witness for the amended C7 at concrete inputs: a tap on the initial
state keeps the tempo in range; a 50 ms-interval session estimates 1200 BPM,
which is discarded; the slider stores 240 as given. -/
theorem tempo_bounds_spec_witness :
    (30 ≤ tapInit.bpm ∧ tapInit.bpm ≤ 300
        ∧ 30 ≤ (handleTap 100 tapInit).bpm ∧ (handleTap 100 tapInit).bpm ≤ 300)
      ∧ ((tapEstimate (tapWindow 50 tapOne) < 30
            ∨ 300 < tapEstimate (tapWindow 50 tapOne))
        ∧ (handleTap 50 tapOne).bpm = tapOne.bpm)
      ∧ (bpmSliderChange 240 tapInit).bpm = 240 := by
  refine ⟨?_, ?_, tempo_bounds_spec.2.2 240 tapInit⟩
  · have h := tempo_bounds_spec.1 100 tapInit (by norm_num [tapInit])
      (by norm_num [tapInit])
    exact ⟨by norm_num [tapInit], by norm_num [tapInit], h.1, h.2⟩
  · have he : 300 < tapEstimate (tapWindow 50 tapOne) := by
      norm_num [tapEstimate, tapWindow, tapOne, round_eq]
    exact ⟨Or.inr he, tempo_bounds_spec.2.1 50 tapOne (Or.inr he)⟩
